import Mathlib

/-!
Verification of `send_bulk.py` (cxplus-bulk-mailer).

This file gives a shallow embedding, in Lean 4, of the pure core of
`send_bulk.py`: configuration loading from the environment, the template
reader, the CSV lead reader (after the stdlib `csv` tokenisation, which is
treated as an opaque library call), the placeholder renderer, and the
dispatch loop of `send_all` / `main`.  I/O effects are made explicit:
the process environment is a function `String → Option String`, file
contents are `String` arguments, stdout reporting is recorded in result
records, and the outcome of the per-lead try-block (message building and
SMTP transmission, both delegated to libraries) is abstracted by a boolean
oracle.  Python exceptions are modelled with `Except`.
-/

namespace SendBulk

/-- The process environment: `os.getenv` is lookup in this map. -/
abbrev Env := String → Option String

/-- ASCII model of Python `str.lower` on one character (`c.lower()`);
the cases outside ASCII that differ are never exercised here. -/
def pyLowerChar (c : Char) : Char :=
  if 65 ≤ c.toNat ∧ c.toNat ≤ 90 then Char.ofNat (c.toNat + 32) else c

/-- Model of Python `str.lower` (ASCII fragment). -/
def pyLowerS (s : String) : String :=
  String.mk (s.data.map pyLowerChar)

/-- Characters stripped by Python `str.strip()` (the ASCII whitespace set). -/
def isPySpace (c : Char) : Bool :=
  [' ', '\t', '\n', '\r', '\x0b', '\x0c'].contains c

/-- Model of Python `str.strip()` on a character list. -/
def pyStrip (l : List Char) : List Char :=
  ((l.dropWhile isPySpace).reverse.dropWhile isPySpace).reverse

/-- Model of Python `str.strip()`. -/
def pyStripS (s : String) : String :=
  String.mk (pyStrip s.data)

/-- Python `str(b)` for a boolean: `str(True) = "True"`. -/
def pyBoolStr : Bool → String
  | true => "True"
  | false => "False"

/-- Digits of a decimal literal folded to a natural number. -/
def natOfDigits (l : List Char) : Nat :=
  l.foldl (fun acc c => acc * 10 + (c.toNat - 48)) 0

/-- Model of the Python builtin `int(s)` on an already-stripped string:
an optional sign followed by decimal digits.  (Underscore grouping and
non-ASCII digits, which `int` also accepts, are not modelled; no theorem
below exercises them.) -/
def pyInt? (s : String) : Option Int :=
  match s.data with
  | '-' :: ds =>
      if ds ≠ [] ∧ ds.all Char.isDigit then some (-(natOfDigits ds : Int)) else none
  | '+' :: ds =>
      if ds ≠ [] ∧ ds.all Char.isDigit then some ((natOfDigits ds : Int)) else none
  | ds =>
      if ds ≠ [] ∧ ds.all Char.isDigit then some ((natOfDigits ds : Int)) else none

/-- Magnitude part of a decimal float literal: digits with an optional
fractional part, as an exact rational. -/
def pyFloatMag (l : List Char) : Option Rat :=
  let intPart := l.takeWhile Char.isDigit
  let rest := l.dropWhile Char.isDigit
  match rest with
  | [] => if intPart = [] then none else some ((natOfDigits intPart : Rat))
  | '.' :: frac =>
      if frac.all Char.isDigit ∧ (intPart ≠ [] ∨ frac ≠ []) then
        some ((natOfDigits intPart : Rat) +
          (natOfDigits frac : Rat) / ((10 : Rat) ^ frac.length))
      else none
  | _ => none

/-- Model of the Python builtin `float(s)` on an already-stripped string,
restricted to plain decimal forms (exponents, `inf`, `nan` are not
modelled; no theorem below exercises them).  Values are exact rationals
rather than IEEE floats: the program only ever compares the delay with 0,
so rounding is irrelevant to every claim. -/
def pyFloat? (s : String) : Option Rat :=
  match s.data with
  | '-' :: rest => (pyFloatMag rest).map (fun q => -q)
  | '+' :: rest => pyFloatMag rest
  | l => pyFloatMag l

/-- The truthy strings recognised by `_env_bool` in the source. -/
def truthyStrings : List String := ["1", "true", "yes", "y", "on"]

/-- Embedding of `_env_bool` (send_bulk.py lines 32-34):
`v = os.getenv(key, str(default)).strip().lower(); return v in ("1","true","yes","y","on")`. -/
def _env_bool (env : Env) (key : String) (default : Bool) : Bool :=
  let v := pyLowerS (pyStripS ((env key).getD (pyBoolStr default)))
  truthyStrings.contains v

/-- Embedding of `_env_int` (lines 37-39): empty (after strip) means the
default; otherwise `int(v)`, whose failure is a raised `ValueError`. -/
def _env_int (env : Env) (key : String) (default : Int) : Except String Int :=
  let v := pyStripS ((env key).getD "")
  if v = "" then Except.ok default
  else
    match pyInt? v with
    | some n => Except.ok n
    | none => Except.error "ValueError: invalid literal for int"

/-- Embedding of `_env_float` (lines 42-44). -/
def _env_float (env : Env) (key : String) (default : Rat) : Except String Rat :=
  let v := pyStripS ((env key).getD "")
  if v = "" then Except.ok default
  else
    match pyFloat? v with
    | some q => Except.ok q
    | none => Except.error "ValueError: could not convert string to float"

/-- Embedding of the frozen dataclass `Config` (lines 17-29).
`rate_limit_seconds` is a float in the source, modelled as `Rat`. -/
structure Config where
  smtp_host : String
  smtp_port : Int
  use_starttls : Bool
  username : String
  password : String
  from_name : String
  bcc_self : Bool
  bcc_address : String
  dry_run : Bool
  rate_limit_seconds : Rat
  max_emails : Int
deriving DecidableEq, Repr

/-- Embedding of `load_config` (lines 47-79).  `load_dotenv()` only seeds
the process environment from a file; `env` here is the environment after
that seeding.  Reads happen in source order, so a malformed `SMTP_PORT`
raises before the credential check, exactly as in the source. -/
def load_config (env : Env) : Except String Config := do
  let host := pyStripS ((env "SMTP_HOST").getD "mail.privateemail.com")
  let port ← _env_int env "SMTP_PORT" 587
  let use_starttls := _env_bool env "SMTP_USE_STARTTLS" true
  let username := pyStripS ((env "SMTP_USERNAME").getD "")
  let password := pyStripS ((env "SMTP_PASSWORD").getD "")
  if username = "" ∨ password = "" then
    Except.error "Missing SMTP_USERNAME or SMTP_PASSWORD. Set them in .env (see .env.example)."
  else
    let from_name := if pyStripS ((env "FROM_NAME").getD "") = "" then username
      else pyStripS ((env "FROM_NAME").getD "")
    let bcc_self := _env_bool env "BCC_SELF" false
    let bcc_address := if pyStripS ((env "BCC_ADDRESS").getD "") = "" then username
      else pyStripS ((env "BCC_ADDRESS").getD "")
    let dry_run := _env_bool env "DRY_RUN" true
    let rate_limit_seconds ← _env_float env "RATE_LIMIT_SECONDS" 1
    let max_emails ← _env_int env "MAX_EMAILS" 0
    Except.ok {
      smtp_host := host
      smtp_port := port
      use_starttls := use_starttls
      username := username
      password := password
      from_name := from_name
      bcc_self := bcc_self
      bcc_address := bcc_address
      dry_run := dry_run
      rate_limit_seconds := rate_limit_seconds
      max_emails := max_emails }

/-- An environment carrying only the two credential variables. -/
def envCreds (u p : String) : Env := fun k =>
  if k = "SMTP_USERNAME" then some u
  else if k = "SMTP_PASSWORD" then some p
  else none

/-- An environment carrying credentials plus a `DRY_RUN` value. -/
def envCredsDry (v : String) : Env := fun k =>
  if k = "SMTP_USERNAME" then some "user"
  else if k = "SMTP_PASSWORD" then some "pw"
  else if k = "DRY_RUN" then some v
  else none

/-- The settings record produced for credentials `u`, `p` when every other
recognised variable is unset: all documented defaults. -/
def defaultConfigFor (u p : String) : Config where
  smtp_host := "mail.privateemail.com"
  smtp_port := 587
  use_starttls := true
  username := pyStripS u
  password := pyStripS p
  from_name := pyStripS u
  bcc_self := false
  bcc_address := pyStripS u
  dry_run := true
  rate_limit_seconds := 1
  max_emails := 0

/-- Computation of `load_config` over an environment holding only the
credential variables. -/
theorem load_config_envCreds (u p : String) :
    load_config (envCreds u p) =
      if pyStripS u = "" ∨ pyStripS p = "" then
        Except.error "Missing SMTP_USERNAME or SMTP_PASSWORD. Set them in .env (see .env.example)."
      else Except.ok (defaultConfigFor u p) := rfl

/-- C8: with every other recognised variable unset, `load_config` raises a
configuration error exactly when the trimmed username or password is empty,
and otherwise returns the settings record with the documented defaults:
host mail.privateemail.com, port 587, STARTTLS on, display name = username,
bcc-self off, bcc address = username, dry-run on, delay 1.0, cap 0. -/
theorem config_error_iff_missing_creds (u p : String) :
    ((∃ e, load_config (envCreds u p) = Except.error e) ↔
      (pyStripS u = "" ∨ pyStripS p = "")) ∧
    (pyStripS u ≠ "" → pyStripS p ≠ "" →
      load_config (envCreds u p) = Except.ok (defaultConfigFor u p)) := by
  rw [load_config_envCreds]
  constructor
  · constructor
    · rintro ⟨e, he⟩
      by_contra hc
      rw [if_neg hc] at he
      cases he
    · intro h
      rw [if_pos h]
      exact ⟨_, rfl⟩
  · intro h1 h2
    rw [if_neg (by tauto)]

/-- Witness for C8 at concrete credentials. -/
theorem config_error_iff_missing_creds_witness :
    load_config (envCreds "ops@example.com" " secret ") =
      Except.ok (defaultConfigFor "ops@example.com" " secret ") :=
  (config_error_iff_missing_creds "ops@example.com" " secret ").2
    (by decide) (by decide)

/-- C9: a boolean environment flag parses to true exactly when its trimmed,
lowercased value is one of 1, true, yes, y, on; any other non-empty value
parses to false even when the default is true, so DRY_RUN set to the
unrecognised string enabled yields dry_run = false despite its on-default. -/
theorem env_bool_truthy_only (env : Env) (key v : String) (d : Bool)
    (h : env key = some v) :
    (_env_bool env key d = true ↔ pyLowerS (pyStripS v) ∈ truthyStrings) ∧
    (∀ c, load_config (envCredsDry "enabled") = Except.ok c → c.dry_run = false) := by
  constructor
  · unfold _env_bool
    rw [h]
    simp [List.contains]
  · intro c hc
    have h1 : (load_config (envCredsDry "enabled")).map Config.dry_run =
        Except.ok false := rfl
    rw [hc] at h1
    simpa [Except.map] using h1

/-- Witness for C9 at the DRY_RUN=enabled environment. -/
theorem env_bool_truthy_only_witness :
    (_env_bool (envCredsDry "enabled") "DRY_RUN" true = true ↔
      pyLowerS (pyStripS "enabled") ∈ truthyStrings) ∧
    (∀ c, load_config (envCredsDry "enabled") = Except.ok c → c.dry_run = false) :=
  env_bool_truthy_only (envCredsDry "enabled") "DRY_RUN" "enabled" true rfl

/-- The line-break characters recognised by Python `str.splitlines`
(besides the two-character sequence CR LF). -/
def isLineBreakChar (c : Char) : Bool :=
  ['\n', '\r', '\x0b', '\x0c', '\x1c', '\x1d', '\x1e', '\x85', ' ', ' '].contains c

/-- Accumulator-passing core of `str.splitlines`: CR LF counts as one
break, every other break character ends the current line, and a final
unterminated line is emitted only when non-empty. -/
def splitlinesAux : List Char → List Char → List String
  | [], acc => if acc.isEmpty then [] else [String.mk acc]
  | '\r' :: '\n' :: rest, acc => String.mk acc :: splitlinesAux rest []
  | c :: rest, acc =>
      if isLineBreakChar c then String.mk acc :: splitlinesAux rest []
      else splitlinesAux rest (acc ++ [c])

/-- Model of Python `str.splitlines()` (no trailing empty line). -/
def splitlines (s : String) : List String :=
  splitlinesAux s.data []

/-- Split at the first occurrence of `sep`, as in `s.split(sep, 1)`:
`none` when `sep` does not occur. -/
def splitFirst (sep : Char) : List Char → Option (List Char × List Char)
  | [] => none
  | c :: rest =>
      if c = sep then some ([], rest)
      else (splitFirst sep rest).map (fun pr => (c :: pr.1, pr.2))

/-- Model of `"\n".join(lines)` at the character level. -/
def joinNL : List (List Char) → List Char
  | [] => []
  | [l] => l
  | l :: ls => l ++ '\n' :: joinNL ls

/-- Embedding of `read_template` (lines 82-91), taking the file text.
The first line must start, case-insensitively, with `subject:`; the
subject is everything after the first colon, stripped; the body is the
remaining lines joined by newlines with leading newline characters
stripped (`lstrip("\n")`).  The `IndexError` branch mirrors
`split(":", 1)[1]` on a colon-free line; it is unreachable under the
guard (proved below). -/
def read_template (text : String) : Except String (String × String) :=
  match splitlines text with
  | [] => Except.error "Template first line must start with Subject:."
  | l0 :: rest =>
      if "subject:".data.isPrefixOf (l0.data.map pyLowerChar) then
        match splitFirst ':' l0.data with
        | some pr =>
            Except.ok (String.mk (pyStrip pr.2),
              String.mk ((joinNL (rest.map String.data)).dropWhile (fun c => c == '\n')))
        | none => Except.error "IndexError"
      else Except.error "Template first line must start with Subject:."

/-- Everything after the first colon of a line (empty when no colon). -/
def afterFirstColon (l : List Char) : List Char :=
  (l.dropWhile (fun c => c != ':')).drop 1

/-- Statement-side reading of the template contract: succeed exactly when
the first eight characters, lowercased, spell `subject:`; then the subject
is the remainder of the first line after the first colon, trimmed, and the
body is the remaining lines, leading blank lines dropped, joined by
newlines. -/
def templateSpec (text : String) : Option (String × String) :=
  match splitlines text with
  | [] => none
  | l0 :: rest =>
      if (l0.data.take 8).map pyLowerChar = "subject:".data then
        some (String.mk (pyStrip (afterFirstColon l0.data)),
          String.mk (joinNL ((rest.dropWhile (fun l => l == "")).map String.data)))
      else none

theorem pyLowerChar_eq_colon {c : Char} (h : pyLowerChar c = ':') : c = ':' := by
  unfold pyLowerChar at h
  split at h
  · rename_i hc
    exfalso
    have h1 : 97 ≤ c.toNat + 32 := by omega
    have h2 : c.toNat + 32 ≤ 122 := by omega
    generalize hm : c.toNat + 32 = m at h h1 h2
    interval_cases m <;> exact absurd h (by decide)
  · exact h

theorem subject_guard_iff (l : List Char) :
    "subject:".data.isPrefixOf (l.map pyLowerChar) = true ↔
      (l.take 8).map pyLowerChar = "subject:".data := by
  rw [List.isPrefixOf_iff_prefix, List.prefix_iff_eq_take]
  have hlen : ("subject:".data).length = 8 := rfl
  rw [hlen, ← List.map_take]
  constructor
  · intro h; exact h.symm
  · intro h; exact h.symm

theorem splitFirst_isSome_of_mem {sep : Char} {l : List Char} (h : sep ∈ l) :
    ∃ pr, splitFirst sep l = some pr := by
  induction l with
  | nil => cases h
  | cons c rest ih =>
    by_cases hc : c = sep
    · exact ⟨([], rest), by simp [splitFirst, hc]⟩
    · have hm : sep ∈ rest := by
        cases h with
        | head => exact absurd rfl hc
        | tail _ h2 => exact h2
      obtain ⟨pr, hpr⟩ := ih hm
      exact ⟨(c :: pr.1, pr.2), by simp [splitFirst, hc, hpr]⟩

theorem splitFirst_snd {sep : Char} : ∀ {l : List Char} {pr},
    splitFirst sep l = some pr → pr.2 = (l.dropWhile (fun c => c != sep)).drop 1 := by
  intro l
  induction l with
  | nil => intro pr h; cases h
  | cons c rest ih =>
    intro pr h
    by_cases hc : c = sep
    · rw [splitFirst, if_pos hc] at h
      cases h
      simp [hc, List.dropWhile_cons]
    · rw [splitFirst, if_neg hc] at h
      cases hsf : splitFirst sep rest with
      | none => rw [hsf] at h; cases h
      | some pr' =>
        rw [hsf] at h
        have h2 : some ((c :: pr'.1, pr'.2)) = some pr := h
        cases h2
        have hne : (c != sep) = true := by simpa using hc
        simp [List.dropWhile_cons, hne, ih hsf]

theorem splitlinesAux_no_break :
    ∀ (s acc : List Char), (∀ c ∈ acc, isLineBreakChar c = false) →
      ∀ l ∈ splitlinesAux s acc, ∀ c ∈ l.data, isLineBreakChar c = false := by
  intro s acc
  induction s, acc using splitlinesAux.induct with
  | case1 acc hempty =>
    intro hacc l hl
    rw [splitlinesAux, if_pos hempty] at hl
    cases hl
  | case2 acc hempty =>
    intro hacc l hl
    rw [splitlinesAux, if_neg hempty] at hl
    rcases List.mem_singleton.mp hl with rfl
    exact hacc
  | case3 rest acc ih =>
    intro hacc l hl
    rw [splitlinesAux] at hl
    cases hl with
    | head => exact hacc
    | tail _ h2 => exact ih (by intro c hc; cases hc) l h2
  | case4 c rest acc hcr hbrk ih =>
    intro hacc l hl
    rw [splitlinesAux.eq_def] at hl
    split at hl
    · rename_i heq
      cases heq
    · rename_i rest2 heq
      injection heq with h1 h2
      exact (hcr rest2 h1 h2).elim
    · rename_i c2 rest2 heq
      injection heq with h1 h2
      subst h1
      subst h2
      rw [if_pos hbrk] at hl
      cases hl with
      | head => exact hacc
      | tail _ h2 => exact ih (by intro c hc; cases hc) l h2
  | case5 c rest acc hcr hbrk ih =>
    intro hacc l hl
    rw [splitlinesAux.eq_def] at hl
    split at hl
    · rename_i heq
      cases heq
    · rename_i rest2 heq
      injection heq with h1 h2
      exact (hcr rest2 h1 h2).elim
    · rename_i c2 rest2 heq
      injection heq with h1 h2
      subst h1
      subst h2
      rw [if_neg hbrk] at hl
      refine ih ?_ l hl
      intro d hd
      rcases List.mem_append.mp hd with hd1 | hd2
      · exact hacc d hd1
      · rcases List.mem_singleton.mp hd2 with rfl
        simpa using hbrk

theorem no_break_ne_newline {l : String} (h : ∀ c ∈ l.data, isLineBreakChar c = false) :
    ∀ c ∈ l.data, c ≠ '\n' := by
  intro c hc heq
  subst heq
  exact absurd (h _ hc) (by decide)

theorem data_eq_nil_iff (l : String) : l.data = [] ↔ l = "" := by
  constructor
  · intro h
    cases l with
    | mk d =>
      have h2 : d = [] := h
      subst h2
      rfl
  · intro h
    subst h
    rfl

theorem joinNL_dropWhile_newline :
    ∀ (ls : List String), (∀ l ∈ ls, ∀ c ∈ l.data, isLineBreakChar c = false) →
      (joinNL (ls.map String.data)).dropWhile (fun c => c == '\n') =
        joinNL ((ls.dropWhile (fun l => l == "")).map String.data) := by
  intro ls
  induction ls with
  | nil => intro _; rfl
  | cons l t ih =>
    intro h
    by_cases hl : l = ""
    · subst hl
      cases t with
      | nil => rfl
      | cons t0 ts =>
        have hstep : joinNL (("" :: t0 :: ts).map String.data) =
            '\n' :: joinNL ((t0 :: ts).map String.data) := rfl
        rw [hstep]
        have hdw : (List.dropWhile (fun s => s == "") ("" :: t0 :: ts)) =
            List.dropWhile (fun s => s == "") (t0 :: ts) := by
          simp [List.dropWhile_cons]
        rw [hdw, List.dropWhile_cons]
        simp only [beq_self_eq_true, if_pos]
        exact ih (by intro x hx; exact h x (List.mem_cons_of_mem _ hx))
    · have hd : l.data ≠ [] := fun hh => hl ((data_eq_nil_iff l).mp hh)
      cases hdata : l.data with
      | nil => exact absurd hdata hd
      | cons c cs =>
        have hc : c ≠ '\n' := by
          apply no_break_ne_newline (h l (List.mem_cons_self _ _))
          rw [hdata]
          exact List.mem_cons_self _ _
        have hcb : (c == '\n') = false := by simpa using hc
        have hlb : (l == "") = false := by simpa using hl
        cases t with
        | nil =>
          simp [joinNL, List.dropWhile_cons, hcb, hlb, hdata]
        | cons t0 ts =>
          have h2 : joinNL ((l :: t0 :: ts).map String.data) =
              c :: (cs ++ '\n' :: joinNL ((t0 :: ts).map String.data)) := by
            show l.data ++ '\n' :: joinNL ((t0 :: ts).map String.data) = _
            rw [hdata]
            rfl
          calc List.dropWhile (fun c => c == '\n') (joinNL (List.map String.data (l :: t0 :: ts)))
              = List.dropWhile (fun c => c == '\n')
                  (c :: (cs ++ '\n' :: joinNL (List.map String.data (t0 :: ts)))) := by rw [h2]
            _ = c :: (cs ++ '\n' :: joinNL (List.map String.data (t0 :: ts))) := by
                  rw [List.dropWhile_cons, hcb]; simp
            _ = joinNL (List.map String.data (l :: t0 :: ts)) := h2.symm
            _ = joinNL (List.map String.data
                  (List.dropWhile (fun s => s == "") (l :: t0 :: ts))) := by
                  rw [List.dropWhile_cons, hlb]; simp

theorem subject_guard_colon {l : List Char}
    (h : (l.take 8).map pyLowerChar = "subject:".data) :
    ∃ pr, splitFirst ':' l = some pr := by
  apply splitFirst_isSome_of_mem
  have h7 : ((l.take 8).map pyLowerChar).get? 7 = some ':' := by
    rw [h]
    rfl
  rw [List.get?_map] at h7
  rcases Option.map_eq_some'.mp h7 with ⟨c, hc, hlc⟩
  have : c = ':' := pyLowerChar_eq_colon hlc
  subst this
  exact List.take_subset 8 l (List.get?_mem hc)

/-- C6: the template reader fails exactly when the first line does not
start, case-insensitively, with Subject: (the empty file included);
otherwise the subject is the remainder of the first line after the first
colon, trimmed, and the body is the remaining lines, leading blank lines
dropped, joined with newlines. -/
theorem read_template_matches_spec (text : String) :
    ((∃ e, read_template text = Except.error e) ↔ templateSpec text = none) ∧
    (∀ p, read_template text = Except.ok p ↔ templateSpec text = some p) := by
  have hlines : ∀ l ∈ splitlines text, ∀ c ∈ l.data, isLineBreakChar c = false :=
    splitlinesAux_no_break text.data [] (by intro c hc; cases hc)
  cases hsl : splitlines text with
  | nil =>
    simp [read_template, templateSpec, hsl]
  | cons l0 rest =>
    have hgi := subject_guard_iff l0.data
    by_cases hg : "subject:".data.isPrefixOf (l0.data.map pyLowerChar) = true
    · have hspec : (l0.data.take 8).map pyLowerChar = "subject:".data := hgi.mp hg
      obtain ⟨pr, hpr⟩ := subject_guard_colon hspec
      have hsub : pyStrip pr.2 = pyStrip (afterFirstColon l0.data) := by
        rw [splitFirst_snd hpr]
        rfl
      have hbody : (joinNL (rest.map String.data)).dropWhile (fun c => c == '\n') =
          joinNL ((rest.dropWhile (fun l => l == "")).map String.data) := by
        apply joinNL_dropWhile_newline
        intro x hx
        exact hlines x (by rw [hsl]; exact List.mem_cons_of_mem _ hx)
      simp only [read_template, templateSpec, hsl, if_pos hg, if_pos hspec, hpr]
      rw [hsub, hbody]
      constructor
      · constructor
        · rintro ⟨e, he⟩
          cases he
        · intro h
          cases h
      · intro p
        constructor
        · intro h
          injection h with h2
          rw [h2]
        · intro h
          injection h with h2
          rw [h2]
    · have hnspec : ¬((l0.data.take 8).map pyLowerChar = "subject:".data) :=
        fun hh => hg (hgi.mpr hh)
      simp [read_template, templateSpec, hsl, hg, hnspec]
      intro hh
      apply hnspec
      rw [List.map_take]
      exact hh

/-- Witness for C6 at a concrete well-formed template file. -/
theorem read_template_matches_spec_witness :
    read_template "Subject:  Hello \n\n\nBody line" = Except.ok ("Hello", "Body line") :=
  ((read_template_matches_spec "Subject:  Hello \n\n\nBody line").2
    ("Hello", "Body line")).mpr rfl

/-- A parsed lead row: association pairs of normalised column name and
value.  Lookup takes the last matching pair, as a Python dict comprehension
over `row.items()` lets a later duplicate key overwrite an earlier one. -/
abbrev Lead := List (String × String)

/-- Python `dict.get(k)`: the value of the last pair with key `k`. -/
def pyDictGet (d : Lead) (k : String) : Option String :=
  d.foldl (fun acc kv => if kv.1 = k then some kv.2 else acc) none

/-- Python `dict.get(k, dflt)`. -/
def pyDictGetD (d : Lead) (k : String) (dflt : String) : String :=
  (pyDictGet d k).getD dflt

/-- Header normalisation `h.strip().lower()`. -/
def normKey (s : String) : String :=
  pyLowerS (pyStripS s)

/-- One `DictReader` row normalised as in the source comprehension
`{k.strip().lower(): (v or "").strip() for k, v in row.items()}`: a cell
missing from a short row is `None`, hence the empty string. -/
def normRow (fns : List String) (cells : List String) : Lead :=
  fns.enum.map (fun ic => (normKey ic.2, pyStripS (cells.getD ic.1 "")))

/-- The headers required by `read_leads_csv`. -/
def requiredHeaders : List String := ["company", "name", "email"]

/-- The row loop of `read_leads_csv` (lines 102-107).  A row longer than
the header list puts its extra cells under the `DictReader` rest key `None`, and
`None.strip()` in the comprehension raises `AttributeError`;
otherwise the row is normalised and appended unless its email is empty. -/
def rowsLoop (fns : List String) : List (List String) → Except String (List Lead)
  | [] => Except.ok []
  | cells :: rest =>
      if fns.length < cells.length then Except.error "AttributeError"
      else
        match rowsLoop fns rest with
        | Except.error e => Except.error e
        | Except.ok ls =>
            Except.ok (if pyDictGetD (normRow fns cells) "email" "" = "" then ls
              else normRow fns cells :: ls)

/-- Embedding of `read_leads_csv` (lines 94-108), taking the output of the
stdlib `csv` tokenisation (treated as an opaque library call): the header
row as `DictReader.fieldnames` (`none` for an empty file) and the data
rows as cell lists.  `DictReader` also skips rows with no cells; such a
row normalises to an all-empty `Lead` and is dropped by the empty-email
test, so the outcome is the same and no special case is needed. -/
def read_leads_csv (fieldnames : Option (List String)) (rows : List (List String)) :
    Except String (List Lead) :=
  match fieldnames with
  | none => Except.error "CSV must include headers: company,name,email"
  | some fns =>
      if fns.isEmpty ∨ ¬(requiredHeaders.all (fun r => (fns.map normKey).contains r)) then
        Except.error "CSV must include headers: company,name,email"
      else rowsLoop fns rows

/-- Outcome printed for one processed lead. -/
inductive SendOutcome where
  | dryRunSim : SendOutcome
  | sentOK : SendOutcome
  | sendFailed : SendOutcome
deriving DecidableEq, Repr

/-- The per-lead loop of `send_all` (lines 178-199).  `i` is the 1-based
`enumerate` counter.  `lead["email"]` is an unguarded lookup outside the
try-block: a missing key raises `KeyError` and aborts the whole run.  The
try-block around message building and transmission is abstracted by the
oracle `ok i` (its failures depend on library and network behaviour): a
false oracle is the caught per-lead exception, counted as a failure. -/
def runLoop (dryRun : Bool) (ok : Nat → Bool) : Nat → List Lead →
    Except String (List (String × SendOutcome))
  | _, [] => Except.ok []
  | i, lead :: rest =>
      match pyDictGet lead "email" with
      | none => Except.error "KeyError: email"
      | some addr =>
          match runLoop dryRun ok (i + 1) rest with
          | Except.error e => Except.error e
          | Except.ok reps =>
              Except.ok ((addr,
                if ok i then
                  (if dryRun then SendOutcome.dryRunSim else SendOutcome.sentOK)
                else SendOutcome.sendFailed) :: reps)

/-- Observable outcome of one `send_all` run: the lead count printed in
the `Loaded` line, whether an SMTP connection is opened (line 170-176),
the leads iterated, the per-lead reports, the final counters and the
returned status. -/
structure RunResult where
  loadedReported : Nat
  openedConnection : Bool
  attemptedLeads : List Lead
  reports : List (String × SendOutcome)
  sent : Nat
  failed : Nat
  exitCode : Nat
deriving Repr

/-- The cap truncation `leads = leads[:cfg.max_emails]` guarded by
`cfg.max_emails > 0` (lines 157-158). -/
def effectiveLeads (cfg : Config) (loadedLeads : List Lead) : List Lead :=
  if cfg.max_emails > 0 then loadedLeads.take cfg.max_emails.toNat else loadedLeads

/-- Embedding of `send_all` (lines 152-209) after its three input-parsing
calls: `loadedLeads` is the list returned by the lead reader, and the
oracle `ok` abstracts the fallible per-lead try-block.  The cap truncates
the list before the `Loaded` line is printed; `sent` counts the leads whose
try-block succeeded, `failed` the rest, and the return value is 0 or 2. -/
def send_all (cfg : Config) (loadedLeads : List Lead) (ok : Nat → Bool) :
    Except String RunResult :=
  let leads := effectiveLeads cfg loadedLeads
  match runLoop cfg.dry_run ok 1 leads with
  | Except.error e => Except.error e
  | Except.ok reps =>
      let failed := reps.countP (fun a => decide (a.2 = SendOutcome.sendFailed))
      Except.ok {
        loadedReported := leads.length
        openedConnection := !cfg.dry_run
        attemptedLeads := leads
        reports := reps
        sent := reps.countP (fun a => decide (a.2 ≠ SendOutcome.sendFailed))
        failed := failed
        exitCode := if failed = 0 then 0 else 2 }

/-- Exit code and usage-line flag of one `main` invocation. -/
structure MainResult where
  exitCode : Nat
  printedUsage : Bool
deriving DecidableEq, Repr

/-- Embedding of `main` (lines 212-216): `argv` includes the script name,
so exactly two positional arguments means `argv.length = 3`.  The inputs
that `send_all` obtains by parsing files are passed through; their fatal
parse errors surface as uncaught exceptions in both the source and the
model. -/
def main (argv : List String) (cfg : Config) (loadedLeads : List Lead)
    (ok : Nat → Bool) : Except String MainResult :=
  if argv.length ≠ 3 then Except.ok { exitCode := 1, printedUsage := true }
  else
    match send_all cfg loadedLeads ok with
    | Except.error e => Except.error e
    | Except.ok r => Except.ok { exitCode := r.exitCode, printedUsage := false }

theorem rowsLoop_eq_filter (fns : List String) :
    ∀ (rows : List (List String)), (∀ cells ∈ rows, cells.length ≤ fns.length) →
      rowsLoop fns rows = Except.ok ((rows.map (normRow fns)).filter
        (fun l => !(pyDictGetD l "email" "" == ""))) := by
  intro rows
  induction rows with
  | nil => intro _; rfl
  | cons cells rest ih =>
    intro h
    have hlen : ¬(fns.length < cells.length) := by
      have := h cells (List.mem_cons_self _ _)
      omega
    rw [rowsLoop, if_neg hlen, ih (fun c hc => h c (List.mem_cons_of_mem _ hc))]
    by_cases he : pyDictGetD (normRow fns cells) "email" "" = ""
    · simp [List.filter_cons, he]
    · simp [List.filter_cons, he]

/-- C7 counterexample: the claim covers every file whose normalised
headers include company, name and email, and asserts the reader returns
the non-empty-email rows with the rest silently excluded; but on a file
with a data row longer than the header row the reader raises instead of
returning anything: `DictReader` files the extra cells under the restkey
`None`, and `None.strip()` in the comprehension at line 104 raises an
uncaught `AttributeError` — here even though that row has an empty email
the claim says is silently excluded, neither counted nor reported as an
error. -/
theorem read_leads_overlong_row_raises :
    read_leads_csv (some ["company", "name", "email"])
      [["A", "N", "n@x.org"], ["B", "M", "", "extra"]] =
      Except.error "AttributeError" := rfl

/-- C7 as amended: when the normalised headers include company, name and
email and no data row has more cells than the header row, the lead reader
returns, in file order, exactly the normalised data rows (keys trimmed
and lowercased, values trimmed, missing cells empty) whose email value is
non-empty; empty-email rows are silently dropped.  (A longer data row
instead raises an uncaught `AttributeError`; see the counterexample
above.) -/
theorem read_leads_filters_empty_email (fns : List String) (rows : List (List String))
    (hreq : ∀ r ∈ requiredHeaders, r ∈ fns.map normKey)
    (hlen : ∀ cells ∈ rows, cells.length ≤ fns.length) :
    read_leads_csv (some fns) rows = Except.ok ((rows.map (normRow fns)).filter
      (fun l => !(pyDictGetD l "email" "" == ""))) := by
  have hne : ¬fns.isEmpty := by
    have h1 : "company" ∈ fns.map normKey := hreq _ (by simp [requiredHeaders])
    rcases List.mem_map.mp h1 with ⟨x, hx, _⟩
    intro hh
    rw [List.isEmpty_iff.mp hh] at hx
    cases hx
  have hall : requiredHeaders.all (fun r => (fns.map normKey).contains r) = true := by
    rw [List.all_eq_true]
    intro r hr
    exact List.elem_iff.mpr (hreq r hr)
  rw [read_leads_csv, if_neg (by
    simp [hne, hall]
    intro r hr
    exact List.mem_map.mp (hreq r hr))]
  exact rowsLoop_eq_filter fns rows hlen

/-- Witness for C7 at a concrete header row and data rows. -/
theorem read_leads_filters_empty_email_witness :
    read_leads_csv (some ["Company ", "name", "email"])
      [[" Acme ", "Ann", " a@x.com "], ["B", "Bob", "  "]] =
      Except.ok [[("company", "Acme"), ("name", "Ann"), ("email", "a@x.com")]] := by
  rw [read_leads_filters_empty_email (["Company ", "name", "email"])
    [[" Acme ", "Ann", " a@x.com "], ["B", "Bob", "  "]] (by decide) (by decide)]
  rfl

theorem range_countP_succ (ok : Nat → Bool) (i n : Nat) :
    (List.range (n + 1)).countP (fun j => !ok (i + j)) =
      (if ok i then 0 else 1) + (List.range n).countP (fun j => !ok (i + 1 + j)) := by
  rw [List.range_succ_eq_map, List.countP_cons, List.countP_map]
  have hc : List.countP ((fun j => !ok (i + j)) ∘ Nat.succ) (List.range n) =
      List.countP (fun j => !ok (i + 1 + j)) (List.range n) := by
    apply List.countP_congr
    intro a _
    simp only [Function.comp]
    have h2 : i + (a + 1) = i + 1 + a := by omega
    rw [h2]
  rw [hc]
  cases h : ok i <;> simp [h] <;> omega

theorem countP_sent_add_failed (reps : List (String × SendOutcome)) :
    reps.countP (fun a => decide (a.2 ≠ SendOutcome.sendFailed)) +
      reps.countP (fun a => decide (a.2 = SendOutcome.sendFailed)) = reps.length := by
  induction reps with
  | nil => rfl
  | cons a t ih =>
    simp only [List.countP_cons, List.length_cons, decide_not] at ih ⊢
    by_cases h : a.2 = SendOutcome.sendFailed <;> simp [h] <;> omega

theorem runLoop_ok_of_emails (d : Bool) (ok : Nat → Bool) :
    ∀ (leads : List Lead) (i : Nat),
      (∀ l ∈ leads, (pyDictGet l "email").isSome = true) →
      ∃ reps, runLoop d ok i leads = Except.ok reps ∧
        reps.length = leads.length ∧
        reps.countP (fun a => decide (a.2 = SendOutcome.sendFailed)) =
          (List.range leads.length).countP (fun j => !ok (i + j)) ∧
        (∀ a ∈ reps, ∃ l, l ∈ leads ∧ pyDictGet l "email" = some a.1) ∧
        (d = true → ∀ a ∈ reps, a.2 = SendOutcome.dryRunSim ∨ a.2 = SendOutcome.sendFailed) ∧
        ((∀ j, ok j = true) → ∀ a ∈ reps, a.2 ≠ SendOutcome.sendFailed) := by
  intro leads
  induction leads with
  | nil =>
    intro i _
    refine ⟨[], rfl, rfl, rfl, ?_, ?_, ?_⟩
    · intro a ha
      cases ha
    · intro _ a ha
      cases ha
    · intro _ a ha
      cases ha
  | cons lead rest ih =>
    intro i hmail
    obtain ⟨v, hv⟩ := Option.isSome_iff_exists.mp (hmail lead (List.mem_cons_self _ _))
    obtain ⟨reps, hrl, hlen, hcnt, haddr, hdry, hok⟩ :=
      ih (i + 1) (fun l hl => hmail l (List.mem_cons_of_mem _ hl))
    refine ⟨(v, if ok i then (if d then SendOutcome.dryRunSim else SendOutcome.sentOK)
      else SendOutcome.sendFailed) :: reps, ?_, ?_, ?_, ?_, ?_, ?_⟩
    · rw [runLoop, hv, hrl]
    · simp [hlen]
    · rw [List.countP_cons, hcnt, List.length_cons, range_countP_succ]
      cases h : ok i <;> cases d <;> simp [h] <;> omega
    · intro a ha
      cases ha with
      | head => exact ⟨lead, List.mem_cons_self _ _, hv⟩
      | tail _ h2 =>
        obtain ⟨l, hl, he⟩ := haddr a h2
        exact ⟨l, List.mem_cons_of_mem _ hl, he⟩
    · intro hd a ha
      cases ha with
      | head =>
        subst hd
        cases h : ok i <;> simp [h]
      | tail _ h2 => exact hdry hd a h2
    · intro hall a ha
      cases ha with
      | head => cases d <;> simp [hall i]
      | tail _ h2 => exact hok hall a h2

theorem send_all_of_runLoop (cfg : Config) (loadedLeads : List Lead) (ok : Nat → Bool)
    {reps : List (String × SendOutcome)}
    (hrl : runLoop cfg.dry_run ok 1 (effectiveLeads cfg loadedLeads) = Except.ok reps) :
    send_all cfg loadedLeads ok = Except.ok {
      loadedReported := (effectiveLeads cfg loadedLeads).length
      openedConnection := !cfg.dry_run
      attemptedLeads := effectiveLeads cfg loadedLeads
      reports := reps
      sent := reps.countP (fun a => decide (a.2 ≠ SendOutcome.sendFailed))
      failed := reps.countP (fun a => decide (a.2 = SendOutcome.sendFailed))
      exitCode := if reps.countP (fun a => decide (a.2 = SendOutcome.sendFailed)) = 0
        then 0 else 2 } := by
  rw [send_all]
  rw [hrl]

theorem effectiveLeads_subset (cfg : Config) (loadedLeads : List Lead) :
    ∀ l ∈ effectiveLeads cfg loadedLeads, l ∈ loadedLeads := by
  intro l hl
  rw [effectiveLeads] at hl
  by_cases h : cfg.max_emails > 0
  · rw [if_pos h] at hl
    exact List.take_subset _ _ hl
  · rw [if_neg h] at hl
    exact hl

theorem rowsLoop_email_nonempty (fns : List String) :
    ∀ (rows : List (List String)) (ls : List Lead), rowsLoop fns rows = Except.ok ls →
      ∀ l ∈ ls, pyDictGetD l "email" "" ≠ "" := by
  intro rows
  induction rows with
  | nil =>
    intro ls h l hl
    cases h
    cases hl
  | cons cells rest ih =>
    intro ls h l hl
    rw [rowsLoop] at h
    split at h
    · cases h
    · cases hrest : rowsLoop fns rest with
      | error e => rw [hrest] at h; cases h
      | ok ls' =>
        rw [hrest] at h
        have h2 : Except.ok (if pyDictGetD (normRow fns cells) "email" "" = "" then ls'
            else normRow fns cells :: ls') = Except.ok ls := h
        by_cases he : pyDictGetD (normRow fns cells) "email" "" = ""
        · rw [if_pos he] at h2
          injection h2 with h3
          rw [← h3] at hl
          exact ih ls' hrest l hl
        · rw [if_neg he] at h2
          injection h2 with h3
          rw [← h3] at hl
          cases hl with
          | head => exact he
          | tail _ hm => exact ih ls' hrest l hm

/-- Fixture lead rows and oracles for the concrete witnesses below. -/
def leadA : Lead := [("company", "Acme"), ("name", "Ann"), ("email", "a@x.com")]

def leadB : Lead := [("company", "Bee"), ("name", "Bob"), ("email", "b@x.com")]

def leadC : Lead := [("company", "Cee"), ("name", "Cid"), ("email", "c@x.com")]

def okAll : Nat → Bool := fun _ => true

def okFail2 : Nat → Bool := fun i => decide (i ≠ 2)

def cfgDry : Config := defaultConfigFor "u" "p"

def cfgCap1 : Config := { defaultConfigFor "u" "p" with max_emails := 1 }

/-- C10: every lead returned by the reader carries a non-empty email
value, so the unguarded `lead["email"]` lookup in the dispatch loop never
raises and every attempted message has a non-empty recipient. -/
theorem leads_email_present_and_loop_safe (fns : List String) (rows : List (List String))
    (ls : List Lead) (h : read_leads_csv (some fns) rows = Except.ok ls) :
    (∀ l ∈ ls, ∃ v, pyDictGet l "email" = some v ∧ v ≠ "") ∧
    (∀ (cfg : Config) (ok : Nat → Bool), ∃ r, send_all cfg ls ok = Except.ok r ∧
      ∀ a ∈ r.reports, a.1 ≠ "") := by
  have hrl : rowsLoop fns rows = Except.ok ls := by
    rw [read_leads_csv] at h
    split at h
    · cases h
    · exact h
  have hne : ∀ l ∈ ls, pyDictGetD l "email" "" ≠ "" :=
    rowsLoop_email_nonempty fns rows ls hrl
  have hmem : ∀ l ∈ ls, ∃ v, pyDictGet l "email" = some v ∧ v ≠ "" := by
    intro l hl
    cases hv : pyDictGet l "email" with
    | none =>
      exfalso
      apply hne l hl
      rw [pyDictGetD, hv]
      rfl
    | some v =>
      refine ⟨v, rfl, ?_⟩
      intro hempty
      apply hne l hl
      rw [pyDictGetD, hv, hempty]
      rfl
  refine ⟨hmem, ?_⟩
  intro cfg ok
  have hmail : ∀ l ∈ effectiveLeads cfg ls, (pyDictGet l "email").isSome = true := by
    intro l hl
    obtain ⟨v, hv, _⟩ := hmem l (effectiveLeads_subset cfg ls l hl)
    rw [hv]
    rfl
  obtain ⟨reps, hrun, _, _, haddr, _, _⟩ :=
    runLoop_ok_of_emails cfg.dry_run ok (effectiveLeads cfg ls) 1 hmail
  refine ⟨_, send_all_of_runLoop cfg ls ok hrun, ?_⟩
  intro a ha
  obtain ⟨l, hl, he⟩ := haddr a ha
  obtain ⟨v, hv, hvne⟩ := hmem l (effectiveLeads_subset cfg ls l hl)
  rw [hv] at he
  injection he with he2
  rw [← he2]
  exact hvne

/-- Witness for C10 at a concrete lead file. -/
theorem leads_email_present_and_loop_safe_witness :
    (∀ l ∈ [[("company", "A"), ("name", "N"), ("email", "n@x.org")]],
      ∃ v, pyDictGet l "email" = some v ∧ v ≠ "") ∧
    (∀ (cfg : Config) (ok : Nat → Bool),
      ∃ r, send_all cfg [[("company", "A"), ("name", "N"), ("email", "n@x.org")]] ok =
        Except.ok r ∧ ∀ a ∈ r.reports, a.1 ≠ "") :=
  leads_email_present_and_loop_safe ["company", "name", "email"]
    [["A", "N", "n@x.org"], ["B", "M", ""]]
    [[("company", "A"), ("name", "N"), ("email", "n@x.org")]] rfl

/-- C2: with no cap configured and every lead carrying an email key, the
loop processes every lead; a false oracle at position i is the caught
per-lead error, counted as a failure; sent + failed = attempted; and a
positive failure count yields return status 2.  No per-lead error aborts
the batch. -/
theorem per_lead_errors_counted (cfg : Config) (leads : List Lead) (ok : Nat → Bool)
    (hcap : cfg.max_emails = 0)
    (hmail : ∀ l ∈ leads, (pyDictGet l "email").isSome = true) :
    ∃ r, send_all cfg leads ok = Except.ok r ∧
      r.attemptedLeads = leads ∧
      r.reports.length = leads.length ∧
      r.failed = (List.range leads.length).countP (fun j => !ok (1 + j)) ∧
      r.sent + r.failed = leads.length ∧
      (0 < r.failed → r.exitCode = 2) := by
  have heff : effectiveLeads cfg leads = leads := by
    rw [effectiveLeads, if_neg]
    rw [hcap]
    decide
  obtain ⟨reps, hrun, hlen, hcnt, _, _, _⟩ :=
    runLoop_ok_of_emails cfg.dry_run ok leads 1 hmail
  have hrun2 : runLoop cfg.dry_run ok 1 (effectiveLeads cfg leads) = Except.ok reps := by
    rw [heff]
    exact hrun
  refine ⟨_, send_all_of_runLoop cfg leads ok hrun2, ?_, ?_, ?_, ?_, ?_⟩
  · exact heff
  · rw [heff]
    exact hlen
  · rw [heff]
    exact hcnt
  · rw [heff]
    rw [countP_sent_add_failed reps]
    exact hlen
  · intro hpos
    have hpos2 : 0 < reps.countP (fun a => decide (a.2 = SendOutcome.sendFailed)) := hpos
    show (if reps.countP (fun a => decide (a.2 = SendOutcome.sendFailed)) = 0
      then 0 else 2) = 2
    rw [if_neg]
    omega

/-- Witness for C2: three leads, the second failing. -/
theorem per_lead_errors_counted_witness :
    ∃ r, send_all cfgDry [leadA, leadB, leadC] okFail2 = Except.ok r ∧
      r.attemptedLeads = [leadA, leadB, leadC] ∧
      r.reports.length = [leadA, leadB, leadC].length ∧
      r.failed = (List.range [leadA, leadB, leadC].length).countP (fun j => !okFail2 (1 + j)) ∧
      r.sent + r.failed = [leadA, leadB, leadC].length ∧
      (0 < r.failed → r.exitCode = 2) :=
  per_lead_errors_counted cfgDry [leadA, leadB, leadC] okFail2 (by decide) (by decide)

/-- C4: in dry-run mode no relay connection is opened, every processed
lead is reported as simulated and counted as sent, and with no local
build error the run finishes with failed = 0 and status 0. -/
theorem dry_run_simulates (cfg : Config) (leads : List Lead) (ok : Nat → Bool)
    (hdry : cfg.dry_run = true) (hok : ∀ j, ok j = true)
    (hmail : ∀ l ∈ leads, (pyDictGet l "email").isSome = true) :
    ∃ r, send_all cfg leads ok = Except.ok r ∧
      r.openedConnection = false ∧
      (∀ a ∈ r.reports, a.2 = SendOutcome.dryRunSim) ∧
      r.reports.length = r.attemptedLeads.length ∧
      r.sent = r.attemptedLeads.length ∧
      r.failed = 0 ∧ r.exitCode = 0 := by
  have hmail2 : ∀ l ∈ effectiveLeads cfg leads, (pyDictGet l "email").isSome = true :=
    fun l hl => hmail l (effectiveLeads_subset cfg leads l hl)
  obtain ⟨reps, hrun, hlen, _, _, hdryrep, hnofail⟩ :=
    runLoop_ok_of_emails cfg.dry_run ok (effectiveLeads cfg leads) 1 hmail2
  have hfail0 : reps.countP (fun a => decide (a.2 = SendOutcome.sendFailed)) = 0 := by
    rw [List.countP_eq_zero]
    intro a ha
    simpa using hnofail hok a ha
  refine ⟨_, send_all_of_runLoop cfg leads ok hrun, ?_, ?_, ?_, ?_, ?_, ?_⟩
  · rw [hdry]
    rfl
  · intro a ha
    rcases hdryrep hdry a ha with h1 | h1
    · exact h1
    · exact absurd h1 (by simpa using hnofail hok a ha)
  · exact hlen
  · show reps.countP (fun a => decide (a.2 ≠ SendOutcome.sendFailed)) =
      (effectiveLeads cfg leads).length
    have hadd := countP_sent_add_failed reps
    rw [hfail0] at hadd
    omega
  · exact hfail0
  · show (if reps.countP (fun a => decide (a.2 = SendOutcome.sendFailed)) = 0
      then 0 else 2) = 0
    rw [if_pos hfail0]

/-- Witness for C4: two leads in dry-run mode with a clean oracle. -/
theorem dry_run_simulates_witness :
    ∃ r, send_all cfgDry [leadA, leadB] okAll = Except.ok r ∧
      r.openedConnection = false ∧
      (∀ a ∈ r.reports, a.2 = SendOutcome.dryRunSim) ∧
      r.reports.length = r.attemptedLeads.length ∧
      r.sent = r.attemptedLeads.length ∧
      r.failed = 0 ∧ r.exitCode = 0 :=
  dry_run_simulates cfgDry [leadA, leadB] okAll rfl (fun _ => rfl) (by decide)

/-- C1 counterexample: with cap N = 1 and M = 2 loaded leads, the Loaded
line reports 1 (the truncated count), not the originally loaded 2 the
claim asserts: truncation at line 157-158 happens before the print at
line 160. -/
theorem loaded_line_reports_truncated_count :
    (send_all cfgCap1 [leadA, leadB] okAll).map RunResult.loadedReported = Except.ok 1 ∧
    [leadA, leadB].length = 2 ∧ (1 : Nat) ≠ 2 :=
  ⟨rfl, rfl, by decide⟩

/-- C1 as amended: when 0 < cap N < loaded count M, the loop attempts
exactly the first N leads in file order, and the Loaded count printed on
stdout is the truncated count N, not the originally loaded M. -/
theorem cap_truncates_attempts_and_loaded (cfg : Config) (leads : List Lead)
    (ok : Nat → Bool) (hpos : 0 < cfg.max_emails)
    (hlt : cfg.max_emails.toNat < leads.length)
    (hmail : ∀ l ∈ leads, (pyDictGet l "email").isSome = true) :
    ∃ r, send_all cfg leads ok = Except.ok r ∧
      r.attemptedLeads = leads.take cfg.max_emails.toNat ∧
      r.attemptedLeads.length = cfg.max_emails.toNat ∧
      r.loadedReported = cfg.max_emails.toNat ∧
      r.loadedReported ≠ leads.length := by
  have heff : effectiveLeads cfg leads = leads.take cfg.max_emails.toNat := by
    rw [effectiveLeads, if_pos hpos]
  have hmail2 : ∀ l ∈ effectiveLeads cfg leads, (pyDictGet l "email").isSome = true :=
    fun l hl => hmail l (effectiveLeads_subset cfg leads l hl)
  obtain ⟨reps, hrun, _, _, _, _, _⟩ :=
    runLoop_ok_of_emails cfg.dry_run ok (effectiveLeads cfg leads) 1 hmail2
  have hlen : (effectiveLeads cfg leads).length = cfg.max_emails.toNat := by
    rw [heff, List.length_take]
    omega
  refine ⟨_, send_all_of_runLoop cfg leads ok hrun, ?_, ?_, ?_, ?_⟩
  · exact heff
  · exact hlen
  · exact hlen
  · show (effectiveLeads cfg leads).length ≠ leads.length
    rw [hlen]
    omega

/-- Witness for the amended C1: cap 1, two loaded leads. -/
theorem cap_truncates_attempts_and_loaded_witness :
    ∃ r, send_all cfgCap1 [leadA, leadB] okAll = Except.ok r ∧
      r.attemptedLeads = [leadA, leadB].take cfgCap1.max_emails.toNat ∧
      r.attemptedLeads.length = cfgCap1.max_emails.toNat ∧
      r.loadedReported = cfgCap1.max_emails.toNat ∧
      r.loadedReported ≠ [leadA, leadB].length :=
  cap_truncates_attempts_and_loaded cfgCap1 [leadA, leadB] okAll
    (by decide) (by decide) (by decide)

theorem send_all_exit_of_failed (cfg : Config) (leads : List Lead) (ok : Nat → Bool)
    (r : RunResult) (hr : send_all cfg leads ok = Except.ok r) :
    r.exitCode = if r.failed = 0 then 0 else 2 := by
  rw [send_all] at hr
  cases hrl : runLoop cfg.dry_run ok 1 (effectiveLeads cfg leads) with
  | error e =>
    rw [hrl] at hr
    cases hr
  | ok reps =>
    rw [hrl] at hr
    injection hr with h2
    rw [← h2]

/-- C5: an argument count other than exactly two positional arguments
prints the usage line and exits with status 1; otherwise, when the run
completes, the exit status is 0 when the failed count is zero and 2
otherwise. -/
theorem main_exit_codes (argv : List String) (cfg : Config) (leads : List Lead)
    (ok : Nat → Bool) (r : RunResult) (hr : send_all cfg leads ok = Except.ok r) :
    (argv.length ≠ 3 → main argv cfg leads ok =
      Except.ok { exitCode := 1, printedUsage := true }) ∧
    (argv.length = 3 → main argv cfg leads ok =
      Except.ok { exitCode := if r.failed = 0 then 0 else 2, printedUsage := false }) := by
  constructor
  · intro h
    rw [main, if_pos h]
  · intro h
    rw [main, if_neg (by omega), hr, ← send_all_exit_of_failed cfg leads ok r hr]

/-- Witness for C5: a one-argument call and a well-formed two-argument
call. -/
theorem main_exit_codes_witness :
    main ["send_bulk.py"] cfgDry [leadA] okAll =
      Except.ok { exitCode := 1, printedUsage := true } ∧
    main ["send_bulk.py", "leads.csv", "template.txt"] cfgDry [leadA] okAll =
      Except.ok { exitCode := 0, printedUsage := false } := by
  constructor
  · exact (main_exit_codes ["send_bulk.py"] cfgDry [leadA] okAll _ rfl).1 (by decide)
  · exact (main_exit_codes ["send_bulk.py", "leads.csv", "template.txt"]
      cfgDry [leadA] okAll _ rfl).2 rfl

/-- Fuel-indexed core of Python `str.replace(old, new)`: scan left to
right, replace each leftmost non-overlapping occurrence of `old`, copy one
character otherwise.  The fuel (initially the length of the scanned
string) only forces structural recursion; it never runs out because a
match consumes at least one character when `old` is non-empty. -/
def replaceGo (old v : List Char) : Nat → List Char → List Char
  | _, [] => []
  | 0, s => s
  | fuel + 1, c :: rest =>
      if !old.isEmpty && old.isPrefixOf (c :: rest) then
        v ++ replaceGo old v fuel ((c :: rest).drop old.length)
      else
        c :: replaceGo old v fuel rest

/-- Model of Python `s.replace(old, v)` for non-empty `old` (the renderer
only ever replaces the non-empty placeholder tokens; the interspersing
behaviour of an empty `old` is not modelled). -/
def pyReplace (s old v : String) : String :=
  String.mk (replaceGo old.data v.data s.data.length s.data)

/-- The canonical-fuel character-list form of `pyReplace`. -/
def replaceAll (old v s : List Char) : List Char :=
  replaceGo old v s.length s

/-- The recognised placeholder names (`PLACEHOLDERS`, line 14). -/
def PLACEHOLDERS : List String := ["company", "name", "email"]

/-- Embedding of `render` (lines 111-115): one sequential
`out.replace("\x7b\x7b" + k + "\x7d\x7d", lead.get(k, ""))` pass per
recognised placeholder, in tuple order. -/
def render (template : String) (lead : Lead) : String :=
  PLACEHOLDERS.foldl
    (fun out k => pyReplace out ("\x7b\x7b" ++ k ++ "\x7d\x7d") (pyDictGetD lead k ""))
    template

/-- A template segment: literal text or a double-brace token name. -/
inductive TItem where
  | lit : List Char → TItem
  | tok : List Char → TItem
deriving DecidableEq, Repr

/-- The template text denoted by a segment list: a token named `k` is the
literal characters `\x7b\x7b k \x7d\x7d`. -/
def flatT : List TItem → List Char
  | [] => []
  | TItem.lit s :: rest => s ++ flatT rest
  | TItem.tok k :: rest => '{' :: '{' :: (k ++ '}' :: '}' :: flatT rest)

/-- The token `\x7b\x7b key \x7d\x7d` as a character list. -/
def tokenOf (k : List Char) : List Char :=
  '{' :: '{' :: (k ++ ['}', '}'])

/-- A character list free of brace characters. -/
def braceFree (l : List Char) : Prop :=
  '{' ∉ l ∧ '}' ∉ l

instance braceFree_dec (l : List Char) : Decidable (braceFree l) := by
  unfold braceFree
  exact inferInstance

/-- Well-formedness of one segment: its literal text or token name is
brace-free. -/
def itemOK : TItem → Prop
  | TItem.lit s => braceFree s
  | TItem.tok k => braceFree k

instance itemOK_dec (item : TItem) : Decidable (itemOK item) := by
  cases item <;> (unfold itemOK; exact inferInstance)

/-- Substitution of a single placeholder `key` by `v` on segments. -/
def substTok (key v : List Char) : TItem → TItem
  | TItem.lit s => TItem.lit s
  | TItem.tok k => if k = key then TItem.lit v else TItem.tok k

/-- Simultaneous substitution the specification describes: each recognised
token becomes the lead value for its key (empty when absent), every other
segment is left verbatim. -/
def substT (lead : Lead) : TItem → TItem
  | TItem.lit s => TItem.lit s
  | TItem.tok k =>
      if String.mk k ∈ PLACEHOLDERS then TItem.lit (pyDictGetD lead (String.mk k) "").data
      else TItem.tok k

theorem replaceGo_fuel (old v : List Char) :
    ∀ (fuel1 : Nat) (fuel2 : Nat) (s : List Char), s.length ≤ fuel1 → s.length ≤ fuel2 →
      replaceGo old v fuel1 s = replaceGo old v fuel2 s := by
  intro fuel1
  induction fuel1 with
  | zero =>
    intro fuel2 s h1 _
    have hs : s = [] := List.length_eq_zero.mp (by omega)
    subst hs
    cases fuel2 <;> rfl
  | succ f ih =>
    intro fuel2 s h1 h2
    cases s with
    | nil => cases fuel2 <;> rfl
    | cons c rest =>
      cases fuel2 with
      | zero => simp at h2
      | succ f2 =>
        simp only [replaceGo]
        by_cases hg : (!old.isEmpty && old.isPrefixOf (c :: rest)) = true
        · rw [if_pos hg, if_pos hg]
          have hone : old ≠ [] := by
            intro hh
            subst hh
            simp at hg
          have holen : 1 ≤ old.length := List.length_pos.mpr hone
          have hdrop : ((c :: rest).drop old.length).length ≤ f ∧
              ((c :: rest).drop old.length).length ≤ f2 := by
            rw [List.length_drop]
            simp only [List.length_cons] at h1 h2 ⊢
            omega
          rw [ih f2 _ hdrop.1 hdrop.2]
        · rw [if_neg hg, if_neg hg]
          have hr1 : rest.length ≤ f := by
            simp only [List.length_cons] at h1
            omega
          have hr2 : rest.length ≤ f2 := by
            simp only [List.length_cons] at h2
            omega
          rw [ih f2 rest hr1 hr2]

theorem replaceAll_nil (old v : List Char) : replaceAll old v [] = [] := rfl

theorem replaceAll_cons_of_not (old v : List Char) (c : Char) (rest : List Char)
    (h : ¬(!old.isEmpty && old.isPrefixOf (c :: rest)) = true) :
    replaceAll old v (c :: rest) = c :: replaceAll old v rest := by
  unfold replaceAll
  simp only [List.length_cons, replaceGo]
  rw [if_neg h]

theorem replaceAll_prefix_match (old v t : List Char) (hne : old ≠ []) :
    replaceAll old v (old ++ t) = v ++ replaceAll old v t := by
  cases old with
  | nil => exact absurd rfl hne
  | cons o os =>
    unfold replaceAll
    have hshape : (o :: os) ++ t = o :: (os ++ t) := rfl
    rw [hshape]
    simp only [List.length_cons, replaceGo]
    rw [if_pos]
    · have hdrop : List.drop (os.length + 1) (o :: (os ++ t)) = t := by
        rw [List.drop_succ_cons]
        exact List.drop_left os t
      rw [hdrop]
      congr 1
      apply replaceGo_fuel
      · simp
      · rfl
    · rw [Bool.and_eq_true]
      constructor
      · rfl
      · rw [List.isPrefixOf_iff_prefix]
        exact List.prefix_append (o :: os) t

theorem replaceAll_append_no_brace (old2 v : List Char) :
    ∀ (s t : List Char), (∀ c ∈ s, c ≠ '{') →
      replaceAll ('{' :: old2) v (s ++ t) = s ++ replaceAll ('{' :: old2) v t := by
  intro s
  induction s with
  | nil => intro t _; rfl
  | cons c s2 ih =>
    intro t hs
    have hc : c ≠ '{' := hs c (List.mem_cons_self _ _)
    have hguard : ¬(!('{' :: old2).isEmpty && ('{' :: old2).isPrefixOf (c :: (s2 ++ t))) = true := by
      intro hg
      rw [Bool.and_eq_true] at hg
      rcases hg with ⟨_, hpre⟩
      rw [List.isPrefixOf_iff_prefix] at hpre
      rcases List.cons_prefix_cons.mp hpre with ⟨h1, _⟩
      exact hc h1.symm
    have hstep : ((c :: s2) ++ t) = c :: (s2 ++ t) := rfl
    rw [hstep, replaceAll_cons_of_not _ _ _ _ hguard,
      ih t (fun d hd => hs d (List.mem_cons_of_mem _ hd))]
    rfl

theorem tok_prefix_eq :
    ∀ (key k : List Char), '}' ∉ key → '}' ∉ k →
      ∀ (l1 l2 : List Char), (key ++ '}' :: l1) <+: (k ++ '}' :: l2) → key = k := by
  intro key
  induction key with
  | nil =>
    intro k hkey hk l1 l2 hpre
    cases k with
    | nil => rfl
    | cons c k2 =>
      exfalso
      rcases List.cons_prefix_cons.mp hpre with ⟨h1, _⟩
      exact hk (by rw [← h1]; exact List.mem_cons_self _ _)
  | cons a key2 ih =>
    intro k hkey hk l1 l2 hpre
    cases k with
    | nil =>
      exfalso
      rcases List.cons_prefix_cons.mp hpre with ⟨h1, _⟩
      exact hkey (by rw [h1]; exact List.mem_cons_self _ _)
    | cons c k2 =>
      rcases List.cons_prefix_cons.mp hpre with ⟨h1, h2⟩
      have hkey2 : '}' ∉ key2 := fun hh => hkey (List.mem_cons_of_mem _ hh)
      have hk2 : '}' ∉ k2 := fun hh => hk (List.mem_cons_of_mem _ hh)
      rw [h1, ih k2 hkey2 hk2 l1 l2 h2]

theorem tok_no_match (key k t : List Char) (hkey : braceFree key) (hk : braceFree k)
    (hne : k ≠ key) :
    ¬(!(tokenOf key).isEmpty &&
        (tokenOf key).isPrefixOf ('{' :: '{' :: (k ++ '}' :: '}' :: t))) = true := by
  intro hg
  rw [Bool.and_eq_true] at hg
  rcases hg with ⟨_, hpre⟩
  rw [List.isPrefixOf_iff_prefix, tokenOf] at hpre
  rcases List.cons_prefix_cons.mp hpre with ⟨_, hpre2⟩
  rcases List.cons_prefix_cons.mp hpre2 with ⟨_, hpre3⟩
  have hshape : key ++ ['}', '}'] = key ++ '}' :: ['}'] := rfl
  have hshape2 : k ++ '}' :: '}' :: t = k ++ '}' :: ('}' :: t) := rfl
  rw [hshape] at hpre3
  rw [hshape2] at hpre3
  exact hne (tok_prefix_eq key k hkey.2 hk.2 ['}'] ('}' :: t) hpre3).symm

theorem tok_no_match_inner (key k t : List Char) (hk : braceFree k) :
    ¬(!(tokenOf key).isEmpty &&
        (tokenOf key).isPrefixOf ('{' :: (k ++ '}' :: '}' :: t))) = true := by
  intro hg
  rw [Bool.and_eq_true] at hg
  rcases hg with ⟨_, hpre⟩
  rw [List.isPrefixOf_iff_prefix, tokenOf] at hpre
  rcases List.cons_prefix_cons.mp hpre with ⟨_, hpre2⟩
  cases k with
  | nil =>
    rcases List.cons_prefix_cons.mp hpre2 with ⟨h1, _⟩
    cases h1
  | cons c k2 =>
    rcases List.cons_prefix_cons.mp hpre2 with ⟨h1, _⟩
    exact hk.1 (by rw [h1]; exact List.mem_cons_self _ _)

theorem flatT_tok_shape (k : List Char) (rest : List TItem) :
    flatT (TItem.tok k :: rest) = tokenOf k ++ flatT rest := by
  rw [flatT, tokenOf]
  simp [List.append_assoc]

theorem replaceAll_flat (key v : List Char) (hkbf : braceFree key) :
    ∀ (its : List TItem), (∀ item ∈ its, itemOK item) →
      replaceAll (tokenOf key) v (flatT its) = flatT (its.map (substTok key v)) := by
  intro its
  induction its with
  | nil => intro _; rfl
  | cons item rest ih =>
    intro hok
    have hokr : ∀ it ∈ rest, itemOK it := fun it hit => hok it (List.mem_cons_of_mem _ hit)
    cases item with
    | lit s =>
      have hs : braceFree s := hok (TItem.lit s) (List.mem_cons_self _ _)
      have h1 : flatT (TItem.lit s :: rest) = s ++ flatT rest := rfl
      have h2 : flatT ((TItem.lit s :: rest).map (substTok key v)) =
          s ++ flatT (rest.map (substTok key v)) := rfl
      have htok : tokenOf key = '{' :: ('{' :: (key ++ ['}', '}'])) := rfl
      rw [h1, h2, htok, replaceAll_append_no_brace _ _ s (flatT rest)
        (fun c hc hceq => hs.1 (hceq ▸ hc)), ← htok, ih hokr]
    | tok k =>
      have hkbf2 : braceFree k := hok (TItem.tok k) (List.mem_cons_self _ _)
      by_cases hkk : k = key
      · subst hkk
        rw [flatT_tok_shape, replaceAll_prefix_match _ _ _ (by simp [tokenOf]), ih hokr]
        have h2 : (TItem.tok k :: rest).map (substTok k v) =
            TItem.lit v :: rest.map (substTok k v) := by
          simp [substTok]
        rw [h2]
        rfl
      · have h1 : flatT (TItem.tok k :: rest) = '{' :: '{' :: (k ++ '}' :: '}' :: flatT rest) := rfl
        rw [h1]
        rw [replaceAll_cons_of_not _ _ _ _ (tok_no_match key k (flatT rest) hkbf hkbf2 hkk)]
        rw [replaceAll_cons_of_not _ _ _ _ (tok_no_match_inner key k (flatT rest) hkbf2)]
        have hshape : k ++ '}' :: '}' :: flatT rest = (k ++ ['}', '}']) ++ flatT rest := by
          simp [List.append_assoc]
        rw [hshape]
        have hnob : ∀ c ∈ k ++ ['}', '}'], c ≠ '{' := by
          intro c hc
          rcases List.mem_append.mp hc with hc1 | hc2
          · intro hceq
            exact hkbf2.1 (hceq ▸ hc1)
          · intro hceq
            have hcc : c = '}' := by
              cases hc2 with
              | head => rfl
              | tail _ h3 =>
                cases h3 with
                | head => rfl
                | tail _ h4 => cases h4
            rw [hceq] at hcc
            exact absurd hcc (by decide)
        have htok : tokenOf key = '{' :: ('{' :: (key ++ ['}', '}'])) := rfl
        rw [htok, replaceAll_append_no_brace _ _ _ _ hnob, ← htok, ih hokr]
        have h2 : (TItem.tok k :: rest).map (substTok key v) =
            TItem.tok k :: rest.map (substTok key v) := by
          simp [substTok, hkk]
        rw [h2, flatT]
        simp [List.append_assoc]

theorem itemOK_map_substTok (key v : List Char) (hv : braceFree v) (its : List TItem)
    (hits : ∀ item ∈ its, itemOK item) :
    ∀ item ∈ its.map (substTok key v), itemOK item := by
  intro item hitem
  rcases List.mem_map.mp hitem with ⟨a, ha, hsub⟩
  cases a with
  | lit s =>
    rw [← hsub]
    exact hits (TItem.lit s) ha
  | tok k =>
    rw [← hsub, substTok]
    by_cases hk : k = key
    · rw [if_pos hk]
      exact hv
    · rw [if_neg hk]
      exact hits (TItem.tok k) ha

theorem substTok_three_eq_substT (lead : Lead) (item : TItem) :
    substTok "email".data (pyDictGetD lead "email" "").data
      (substTok "name".data (pyDictGetD lead "name" "").data
        (substTok "company".data (pyDictGetD lead "company" "").data item)) =
      substT lead item := by
  cases item with
  | lit s => rfl
  | tok k =>
    by_cases h1 : k = "company".data
    · subst h1
      rfl
    · by_cases h2 : k = "name".data
      · subst h2
        rfl
      · by_cases h3 : k = "email".data
        · subst h3
          rfl
        · have hmem : ¬(String.mk k ∈ PLACEHOLDERS) := by
            intro hmem
            simp only [PLACEHOLDERS, List.mem_cons, List.not_mem_nil, or_false] at hmem
            rcases hmem with h4 | h4 | h4
            · exact h1 (congrArg String.data h4)
            · exact h2 (congrArg String.data h4)
            · exact h3 (congrArg String.data h4)
          simp [substTok, substT, h1, h2, h3, hmem]

/-- C3 as amended: for a template assembled from brace-free literal
segments and brace-free token names, and a lead whose recognised values
are brace-free, the sequential renderer replaces every occurrence of each
recognised token with the lead value for that key (empty when absent) and
leaves every unrecognised token verbatim, i.e. it equals the simultaneous
per-segment substitution. -/
theorem render_substitutes_each_token (its : List TItem) (lead : Lead)
    (hits : ∀ item ∈ its, itemOK item)
    (hval : ∀ k ∈ PLACEHOLDERS, braceFree (pyDictGetD lead k "").data) :
    render (String.mk (flatT its)) lead = String.mk (flatT (its.map (substT lead))) := by
  have hrender : render (String.mk (flatT its)) lead =
      String.mk (replaceAll (tokenOf "email".data) (pyDictGetD lead "email" "").data
        (replaceAll (tokenOf "name".data) (pyDictGetD lead "name" "").data
          (replaceAll (tokenOf "company".data) (pyDictGetD lead "company" "").data
            (flatT its)))) := rfl
  have hvc : braceFree (pyDictGetD lead "company" "").data := hval _ (by decide)
  have hvn : braceFree (pyDictGetD lead "name" "").data := hval _ (by decide)
  have hve : braceFree (pyDictGetD lead "email" "").data := hval _ (by decide)
  have hits1 := itemOK_map_substTok "company".data (pyDictGetD lead "company" "").data
    hvc its hits
  have hits2 := itemOK_map_substTok "name".data (pyDictGetD lead "name" "").data
    hvn _ hits1
  rw [hrender,
    replaceAll_flat "company".data (pyDictGetD lead "company" "").data (by decide) its hits,
    replaceAll_flat "name".data (pyDictGetD lead "name" "").data (by decide) _ hits1,
    replaceAll_flat "email".data (pyDictGetD lead "email" "").data (by decide) _ hits2,
    List.map_map, List.map_map]
  have hfun : (substTok "email".data (pyDictGetD lead "email" "").data ∘
      substTok "name".data (pyDictGetD lead "name" "").data) ∘
        substTok "company".data (pyDictGetD lead "company" "").data = substT lead :=
    funext (fun item => substTok_three_eq_substT lead item)
  rw [hfun]

/-- C3 counterexample: the claim, read over every template and every lead
record, predicts that `\x7b\x7bname\x7d\x7d` with a lead whose name value
is the literal text `\x7b\x7bemail\x7d\x7d` renders to that value verbatim
(the template contains one recognised token and no other), but the
sequential passes re-substitute the token the first pass introduced and
produce the empty string. -/
theorem render_resubstitutes_introduced_token :
    render "\x7b\x7bname\x7d\x7d" [("name", "\x7b\x7bemail\x7d\x7d")] = "" ∧
    ("" : String) ≠ "\x7b\x7bemail\x7d\x7d" :=
  ⟨rfl, by decide⟩

/-- Segment form of the specification example template. -/
def exampleItems : List TItem :=
  [TItem.lit "Hi ".data, TItem.tok "name".data, TItem.lit " from ".data,
   TItem.tok "company".data, TItem.lit ", contact ".data, TItem.tok "email".data,
   TItem.lit "; see ".data, TItem.tok "other".data]

/-- The specification example lead. -/
def exampleLead : Lead := [("name", "Ann"), ("company", "Acme"), ("email", "a@x.com")]

/-- Witness for the amended C3 at the specification example: the theorem
applied to the example segments, plus the concrete rendering it implies. -/
theorem render_substitutes_each_token_witness :
    render (String.mk (flatT exampleItems)) exampleLead =
      String.mk (flatT (exampleItems.map (substT exampleLead))) ∧
    render "Hi \x7b\x7bname\x7d\x7d from \x7b\x7bcompany\x7d\x7d, contact \x7b\x7bemail\x7d\x7d; see \x7b\x7bother\x7d\x7d"
      exampleLead = "Hi Ann from Acme, contact a@x.com; see \x7b\x7bother\x7d\x7d" :=
  ⟨render_substitutes_each_token exampleItems exampleLead (by decide) (by decide), rfl⟩

end SendBulk
